import Mathlib

/-!
Verification development for the GovConnect government-schemes eligibility
system. The repository snapshot contains the MongoDB initialization script
(`mongo-init.js`) and documentation; the eligibility evaluation engine
(`app/services/eligibility_service.py`) is described by the specification
but its source is not in the snapshot, so the engine is modelled here from
the specification (sections 3, 4, 6, 7) and the database layer is embedded
from `mongo-init.js`.
-/

namespace GovConnect

/-- Tri-state evaluation result: a criterion is satisfied, unsatisfied, or
cannot be decided from the available data (missing attribute or
type-incompatible comparison). -/
inductive Tri where
  | isTrue
  | isFalse
  | undecided
deriving DecidableEq, Repr

/-- Modelled from the spec: scalar profile/rule values (number, string,
boolean, or set of strings) of the engine, whose source
(`app/services/eligibility_service.py`) is not in the snapshot. -/
inductive Scalar where
  | num (n : Int)
  | str (s : String)
  | bool (b : Bool)
  | strSet (l : List String)
deriving DecidableEq, Repr

/-- Modelled from the spec: a rule value is a scalar or a list of scalars
(for membership and range operators). -/
inductive CritValue where
  | scalar (v : Scalar)
  | list (vs : List Scalar)
deriving DecidableEq, Repr

/-- A user profile: mapping from attribute name to scalar value. -/
abbrev UserProfile := List (String × Scalar)

/-- First-match lookup of an attribute in a profile. -/
def lookupAttr (p : UserProfile) (a : String) : Option Scalar :=
  match p with
  | [] => none
  | (k, v) :: rest => if k = a then some v else lookupAttr rest a

/-- Modelled from the spec: the fixed, closed operator set of the Operator
Library (section 4.1). -/
inductive Operator where
  | eq
  | ne
  | gt
  | ge
  | lt
  | le
  | truthy
  | falsy
  | mem
  | notMem
  | between
deriving DecidableEq, Repr

/-- Modelled from the spec: operator-name table validated at rule-load time;
unknown names yield `none`. -/
def parseOp (s : String) : Option Operator :=
  if s = "==" then some .eq
  else if s = "!=" then some .ne
  else if s = ">" then some .gt
  else if s = ">=" then some .ge
  else if s = "<" then some .lt
  else if s = "<=" then some .le
  else if s = "truthy" then some .truthy
  else if s = "falsy" then some .falsy
  else if s = "in" then some .mem
  else if s = "not_in" then some .notMem
  else if s = "between" then some .between
  else none

/-- Embed a definite boolean into the tri-state. -/
def ofBool (b : Bool) : Tri := if b then .isTrue else .isFalse

/-- Two scalars have the same runtime type. -/
def sameType : Scalar → Scalar → Bool
  | .num _, .num _ => true
  | .str _, .str _ => true
  | .bool _, .bool _ => true
  | .strSet _, .strSet _ => true
  | _, _ => false

/-- Boolean coercion of a scalar (non-empty, non-zero, true). -/
def truthiness : Scalar → Bool
  | .num n => decide (n ≠ 0)
  | .str s => !s.isEmpty
  | .bool b => b
  | .strSet l => !l.isEmpty

/-- Modelled from the spec: the Operator Library (section 4.1). Each
operator is a total function from profile value and rule value to the
tri-state; incompatible types yield `undecided`, never a thrown error and
never a silent `false`. -/
def applyOp : Operator → Scalar → CritValue → Tri
  | .eq, pv, .scalar rv => if sameType pv rv then ofBool (decide (pv = rv)) else .undecided
  | .eq, _, .list _ => .undecided
  | .ne, pv, .scalar rv => if sameType pv rv then ofBool (decide (pv ≠ rv)) else .undecided
  | .ne, _, .list _ => .undecided
  | .gt, .num a, .scalar (.num b) => ofBool (decide (b < a))
  | .gt, .str a, .scalar (.str b) => ofBool (decide (b < a))
  | .gt, _, _ => .undecided
  | .ge, .num a, .scalar (.num b) => ofBool (decide (b ≤ a))
  | .ge, .str a, .scalar (.str b) => ofBool (decide (b < a) || decide (a = b))
  | .ge, _, _ => .undecided
  | .lt, .num a, .scalar (.num b) => ofBool (decide (a < b))
  | .lt, .str a, .scalar (.str b) => ofBool (decide (a < b))
  | .lt, _, _ => .undecided
  | .le, .num a, .scalar (.num b) => ofBool (decide (a ≤ b))
  | .le, .str a, .scalar (.str b) => ofBool (decide (a < b) || decide (a = b))
  | .le, _, _ => .undecided
  | .truthy, pv, _ => ofBool (truthiness pv)
  | .falsy, pv, _ => ofBool (!truthiness pv)
  | .mem, pv, .list vs => ofBool (decide (pv ∈ vs))
  | .mem, _, .scalar _ => .undecided
  | .notMem, pv, .list vs => ofBool (!decide (pv ∈ vs))
  | .notMem, _, .scalar _ => .undecided
  | .between, .num a, .list [.num lo, .num hi] => ofBool (decide (lo ≤ a) && decide (a ≤ hi))
  | .between, _, _ => .undecided

/-- Modelled from the spec: one leaf predicate of an eligibility rule
(section 3): attribute name (`attr`, since `attribute` is a Lean keyword),
operator, comparison value. -/
structure Criterion where
  attr : String
  op : Operator
  value : CritValue
deriving DecidableEq, Repr

/-- Modelled from the spec: the Criterion Evaluator (section 4.2). A
missing profile attribute yields `undecided`, never `false`. -/
def evalCriterion (p : UserProfile) (c : Criterion) : Tri :=
  match lookupAttr p c.attr with
  | none => .undecided
  | some v => applyOp c.op v c.value

/-- Modelled from the spec: a scheme eligibility rule (section 3):
`all` criteria must all hold, `anyOf` (the spec field `any`) needs at least
one to hold when non-empty, and a firing disqualifier forces ineligibility. -/
structure EligibilityRule where
  all : List Criterion
  anyOf : List Criterion
  disqualifiers : List Criterion
deriving DecidableEq, Repr

/-- Criteria of a group that evaluate to the given tri-state value. -/
def critsWith (p : UserProfile) (cs : List Criterion) (t : Tri) : List Criterion :=
  cs.filter (fun c => decide (evalCriterion p c = t))

/-- Disqualifier criteria that fire (evaluate to a definite `true`). -/
def firedDisqualifiers (p : UserProfile) (r : EligibilityRule) : List Criterion :=
  critsWith p r.disqualifiers .isTrue

/-- Modelled from the spec: verdict of the `all` group (section 4.3 step 2):
a definite `false` wins over `undecided`, which wins over `true`; the empty
group is vacuously `true`. -/
def groupAllVerdict (p : UserProfile) (cs : List Criterion) : Tri :=
  if cs.any (fun c => decide (evalCriterion p c = .isFalse)) then .isFalse
  else if cs.any (fun c => decide (evalCriterion p c = .undecided)) then .undecided
  else .isTrue

/-- Modelled from the spec: verdict of the `any` group (section 4.3 step 3):
`true` wins over `undecided` wins over `false`; the empty group is vacuously
`true` (it does not block eligibility). -/
def groupAnyVerdict (p : UserProfile) (cs : List Criterion) : Tri :=
  if cs.isEmpty then .isTrue
  else if cs.any (fun c => decide (evalCriterion p c = .isTrue)) then .isTrue
  else if cs.any (fun c => decide (evalCriterion p c = .undecided)) then .undecided
  else .isFalse

/-- Modelled from the spec: combination of group verdicts (section 4.3
step 4): `true` iff both groups are `true`; a `false` group wins over an
`undecided` one. -/
def combineVerdicts (aV nV : Tri) : Tri :=
  if aV = .isFalse ∨ nV = .isFalse then .isFalse
  else if aV = .undecided ∨ nV = .undecided then .undecided
  else .isTrue

/-- Modelled from the spec: output of the Rule Tree Evaluator
(section 4.3). -/
structure RuleEvalResult where
  verdict : Tri
  satisfied : List Criterion
  failed : List Criterion
  undecidedCrits : List Criterion
  fired : List Criterion
deriving DecidableEq, Repr

/-- Modelled from the spec: the Rule Tree Evaluator (section 4.3). A firing
disqualifier short-circuits: the `all` and `anyOf` groups are not consulted
at all in that branch. -/
def evaluateRule (p : UserProfile) (r : EligibilityRule) : RuleEvalResult :=
  let fired := firedDisqualifiers p r
  if fired.isEmpty then
    { verdict := combineVerdicts (groupAllVerdict p r.all) (groupAnyVerdict p r.anyOf)
      satisfied := critsWith p r.all .isTrue ++ critsWith p r.anyOf .isTrue
      failed := critsWith p r.all .isFalse ++ critsWith p r.anyOf .isFalse
      undecidedCrits := critsWith p r.all .undecided ++ critsWith p r.anyOf .undecided
      fired := [] }
  else
    { verdict := .isFalse, satisfied := [], failed := [], undecidedCrits := [], fired := fired }

/-- Modelled from the spec: descriptive scheme metadata (section 3),
attached unchanged to results. -/
structure SchemeMeta where
  scheme_id : String
  scheme_name : String
  required_inputs : List String
  required_documents : List String
  benefit_outline : String
  next_steps : String
deriving DecidableEq, Repr

/-- Modelled from the spec: the user-facing outcome for one scheme
(section 3). -/
structure EvaluationOutcome where
  scheme_id : String
  is_eligible : Bool
  reasons : List String
  required_documents : List String
  score : ℚ
deriving DecidableEq, Repr

/-- Modelled from the spec: the engine report for one catalog evaluation
(section 3). -/
structure EligibilityReport where
  total_schemes_checked : Nat
  eligible_schemes : Nat
  results : List EvaluationOutcome
deriving DecidableEq, Repr

/-- Reason text for a fired disqualifier. -/
def disqReason (c : Criterion) : String :=
  "Disqualified by criterion on " ++ c.attr

/-- Reason text for a satisfied criterion. -/
def satReason (c : Criterion) : String :=
  "Criterion satisfied: " ++ c.attr

/-- Reason text for a failed criterion. -/
def failReason (c : Criterion) : String :=
  "Criterion not satisfied: " ++ c.attr

/-- Reason text for an undecided criterion: the explicit insufficient-data
notice naming the attribute. -/
def insufficientReason (c : Criterion) : String :=
  "insufficient data for " ++ c.attr

/-- Per-criterion reason for the `any` group, in rule insertion order;
undecided criteria are deferred to the insufficient-data notices. -/
def anyGroupReasons (p : UserProfile) (cs : List Criterion) : List String :=
  cs.filterMap (fun c =>
    match evalCriterion p c with
    | .isTrue => some (satReason c)
    | .isFalse => some (failReason c)
    | .undecided => none)

/-- Modelled from the spec: the ordered reason list (section 4.4):
disqualifier reasons first (alone, since a firing disqualifier
short-circuits); otherwise satisfied-`all` reasons, then satisfied/failed
`any` reasons, then insufficient-data notices for undecided criteria, all
in rule insertion order. -/
def reasonList (p : UserProfile) (r : EligibilityRule) : List String :=
  let fired := firedDisqualifiers p r
  if fired.isEmpty then
    (critsWith p r.all .isTrue).map satReason
      ++ anyGroupReasons p r.anyOf
      ++ (critsWith p r.all .undecided ++ critsWith p r.anyOf .undecided).map insufficientReason
  else
    fired.map disqReason

/-- Modelled from the spec: the confidence score (section 4.4):
`all` criteria weighted double, 100 when both groups are empty, 0 when the
scheme is disqualified. -/
def scoreOf (p : UserProfile) (r : EligibilityRule) (disqualified : Bool) : ℚ :=
  if disqualified then 0
  else if r.all.isEmpty && r.anyOf.isEmpty then 100
  else
    100 * ((2 * (critsWith p r.all .isTrue).length + (critsWith p r.anyOf .isTrue).length : Nat) : ℚ)
      / ((2 * r.all.length + r.anyOf.length : Nat) : ℚ)

/-- Keep the first occurrence of each string, dropping later duplicates. -/
def dedupKeepFirstAux (seen : List String) : List String → List String
  | [] => []
  | x :: xs =>
    if x ∈ seen then dedupKeepFirstAux seen xs
    else x :: dedupKeepFirstAux (x :: seen) xs

/-- Deduplicate, keeping first-seen order. -/
def dedupKeepFirst (l : List String) : List String :=
  dedupKeepFirstAux [] l

/-- Modelled from the spec: `evaluateOne` (sections 4.4 and 6): evaluates
one rule for one profile and builds the user-facing outcome. -/
def evaluateOne (p : UserProfile) (r : EligibilityRule) (m : SchemeMeta) : EvaluationOutcome :=
  let res := evaluateRule p r
  { scheme_id := m.scheme_id
    is_eligible := decide (res.verdict = .isTrue)
    reasons := reasonList p r
    required_documents := dedupKeepFirst m.required_documents
    score := scoreOf p r (!res.fired.isEmpty) }

/-- Modelled from the spec: a raw (unvalidated) criterion as stored in the
catalog, before rule-load validation: `attribute` or `op` may be missing
and `op` is an arbitrary string. -/
structure RawCriterion where
  attr : Option String
  op : Option String
  value : CritValue
deriving DecidableEq, Repr

/-- Modelled from the spec: a raw rule prior to rule-load validation. -/
structure RawRule where
  all : List RawCriterion
  anyOf : List RawCriterion
  disqualifiers : List RawCriterion
deriving DecidableEq, Repr

/-- Modelled from the spec: rule-load validation of one criterion
(sections 4.1, 4.2, 7): a missing attribute or operator, or an unknown
operator name, is a configuration error. -/
def parseCriterion (rc : RawCriterion) : Except String Criterion :=
  match rc.attr with
  | none => .error "missing attribute"
  | some a =>
    match rc.op with
    | none => .error "missing op"
    | some o =>
      match parseOp o with
      | none => .error ("unknown operator " ++ o)
      | some oper => .ok { attr := a, op := oper, value := rc.value }

/-- Modelled from the spec: rule-load validation of a whole rule. -/
def parseRule (rr : RawRule) : Except String EligibilityRule := do
  let a ← rr.all.mapM parseCriterion
  let n ← rr.anyOf.mapM parseCriterion
  let d ← rr.disqualifiers.mapM parseCriterion
  pure { all := a, anyOf := n, disqualifiers := d }

/-- Modelled from the spec: outcome of one catalog entry (section 4.5): a
malformed rule yields an ineligible zero-score outcome with a
malformed-rule reason instead of aborting the batch. -/
def entryOutcome (p : UserProfile) (e : RawRule × SchemeMeta) : EvaluationOutcome :=
  match parseRule e.1 with
  | .error msg =>
    { scheme_id := e.2.scheme_id
      is_eligible := false
      reasons := ["Malformed rule: " ++ msg]
      required_documents := dedupKeepFirst e.2.required_documents
      score := 0 }
  | .ok r => evaluateOne p r e.2

/-- Stable insertion of an outcome into a list sorted by descending score:
the new element goes before every strictly lower score and after every
earlier element of greater-or-equal score. -/
def insertOutcome (x : EvaluationOutcome) : List EvaluationOutcome → List EvaluationOutcome
  | [] => [x]
  | y :: ys => if x.score < y.score then y :: insertOutcome x ys else x :: y :: ys

/-- Modelled from the spec: stable sort by descending score, ties broken by
original order (section 4.5). -/
def sortByScoreDesc : List EvaluationOutcome → List EvaluationOutcome
  | [] => []
  | x :: xs => insertOutcome x (sortByScoreDesc xs)

/-- Modelled from the spec: `evaluateCatalog` (sections 4.5 and 6): one
outcome per catalog entry, eligible count, results sorted by descending
score. -/
def evaluateCatalog (p : UserProfile) (catalog : List (RawRule × SchemeMeta)) :
    EligibilityReport :=
  let outcomes := catalog.map (entryOutcome p)
  { total_schemes_checked := catalog.length
    eligible_schemes := outcomes.countP (fun o => o.is_eligible)
    results := sortByScoreDesc outcomes }

/-- BSON value model for the collection validators of `mongo-init.js`. -/
inductive BVal where
  | str (s : String)
  | bool (b : Bool)
  | date (t : Nat)
  | objectId (o : Nat)
  | intVal (n : Int)
  | arr (l : List BVal)
  | doc (fields : List (String × BVal))

/-- A stored document: ordered field list. -/
abbrev Doc := List (String × BVal)

/-- First occurrence of a field in a document. -/
def getField (d : Doc) (k : String) : Option BVal :=
  match d with
  | [] => none
  | (k2, v) :: rest => if k2 = k then some v else getField rest k

/-- A document has the given field. -/
def hasField (d : Doc) (k : String) : Bool :=
  (getField d k).isSome

/-- BSON type tests used by the `$jsonSchema` validators. -/
def isStr : BVal → Bool
  | .str _ => true
  | _ => false

def isBool : BVal → Bool
  | .bool _ => true
  | _ => false

def isDate : BVal → Bool
  | .date _ => true
  | _ => false

def isArr : BVal → Bool
  | .arr _ => true
  | _ => false

def isObj : BVal → Bool
  | .doc _ => true
  | _ => false

def isObjectId : BVal → Bool
  | .objectId _ => true
  | _ => false

/-- A property constraint: if the field is present it must have the stated
type; absent fields pass (the `properties` semantics of `$jsonSchema`). -/
def propOk (d : Doc) (k : String) (ty : BVal → Bool) : Bool :=
  match getField d k with
  | none => true
  | some v => ty v

/-- The `eligibility_results` validator of `mongo-init.js` (lines 60-75):
`user_id`, `scheme_id`, `is_eligible`, `checked_at` required, with typed
optional `reasons` and `required_documents` arrays. -/
def eligibilityResultsValidator (d : Doc) : Bool :=
  hasField d "user_id" && hasField d "scheme_id"
    && hasField d "is_eligible" && hasField d "checked_at"
    && propOk d "user_id" isStr && propOk d "scheme_id" isStr
    && propOk d "is_eligible" isBool && propOk d "reasons" isArr
    && propOk d "required_documents" isArr && propOk d "checked_at" isDate

/-- The `scheme_rules` validator of `mongo-init.js` (lines 25-43): only
`scheme_id`, `scheme_name`, `eligibility`, `required_inputs` are required;
`required_documents` is merely a typed optional property. -/
def schemeRulesValidator (d : Doc) : Bool :=
  hasField d "scheme_id" && hasField d "scheme_name"
    && hasField d "eligibility" && hasField d "required_inputs"
    && propOk d "scheme_id" isStr && propOk d "scheme_name" isStr
    && propOk d "eligibility" isObj && propOk d "required_inputs" isArr
    && propOk d "required_documents" isArr && propOk d "benefit_outline" isStr
    && propOk d "next_steps" isStr && propOk d "created_at" isDate
    && propOk d "updated_at" isDate

/-- String content of a field, when it is a BSON string. -/
def getStrField (d : Doc) (k : String) : Option String :=
  match getField d k with
  | some (.str s) => some s
  | _ => none

/-- Key of the unique index `{user_id: 1, scheme_id: 1}` on
`eligibility_results` (`mongo-init.js` line 82). -/
def resultKey (d : Doc) : Option String × Option String :=
  (getStrField d "user_id", getStrField d "scheme_id")

/-- States of the `eligibility_results` collection reachable through the
initialized collection: inserts must pass the validator and the unique
`(user_id, scheme_id)` index; any subset of documents may later be
removed. -/
inductive ResultsState : List Doc → Prop where
  | empty : ResultsState []
  | insert (d : Doc) (s : List Doc) :
      ResultsState s →
      eligibilityResultsValidator d = true →
      (∀ d2 ∈ s, resultKey d2 ≠ resultKey d) →
      ResultsState (d :: s)
  | remove (s t : List Doc) :
      ResultsState s →
      t.Sublist s →
      ResultsState t

/-- Boundary loader for a stored scheme-rule document: the optional
`required_documents` array, defaulting to the empty list when the field is
absent or not an array of strings. -/
def loadRequiredDocuments (d : Doc) : List String :=
  match getField d "required_documents" with
  | some (.arr l) =>
    l.filterMap (fun v =>
      match v with
      | .str s => some s
      | _ => none)
  | _ => []

/-- A concrete stored scheme-rule document with no `required_documents`
field. -/
def schemeRuleDocNoDocs : Doc :=
  [("scheme_id", .str "pm_kisan"), ("scheme_name", .str "PM-KISAN Scheme"),
   ("eligibility", .doc []), ("required_inputs", .arr [.str "age"])]

/-- A concrete stored eligibility-result document. -/
def sampleResultDoc : Doc :=
  [("user_id", .str "u1"), ("scheme_id", .str "pm_kisan"),
   ("is_eligible", .bool true), ("checked_at", .date 0)]

/-- Concrete criterion: age at least 18. -/
def ageCriterion : Criterion :=
  { attr := "age", op := .ge, value := .scalar (.num 18) }

/-- Concrete disqualifier: income above 1000000. -/
def incomeDisqualifier : Criterion :=
  { attr := "income", op := .gt, value := .scalar (.num 1000000) }

/-- Concrete scheme metadata, with a duplicated document name. -/
def demoMeta : SchemeMeta :=
  { scheme_id := "pm_kisan", scheme_name := "PM-KISAN Scheme",
    required_inputs := ["age", "income"],
    required_documents := ["aadhaar", "land_record", "aadhaar"],
    benefit_outline := "annual income support", next_steps := "apply online" }

/-- Concrete rule: adults only, no disqualifiers. -/
def demoRule : EligibilityRule :=
  { all := [ageCriterion], anyOf := [], disqualifiers := [] }

/-- Concrete rule: adults only, disqualified above the income cap. -/
def demoRuleDisq : EligibilityRule :=
  { all := [ageCriterion], anyOf := [], disqualifiers := [incomeDisqualifier] }

/-- Concrete rule with empty criterion groups and one disqualifier. -/
def emptyGroupsRule : EligibilityRule :=
  { all := [], anyOf := [], disqualifiers := [incomeDisqualifier] }

/-- Concrete profile: an adult with a modest income. -/
def adultProfile : UserProfile := [("age", .num 25), ("income", .num 50000)]

/-- Concrete profile: an adult above the income cap. -/
def richProfile : UserProfile := [("age", .num 25), ("income", .num 2000000)]

/-- Concrete profile whose age attribute is missing but whose income fires
the disqualifier. -/
def missingAgeProfile : UserProfile := [("income", .num 2000000)]

/-- Concrete profile with only an occupation. -/
def farmerProfile : UserProfile := [("occupation", .str "farmer")]

/-- Concrete raw rule whose only criterion names an unknown operator. -/
def badRawRule : RawRule :=
  { all := [{ attr := some "age", op := some "~~", value := .scalar (.num 18) }],
    anyOf := [], disqualifiers := [] }

theorem critsWith_mem {p : UserProfile} {cs : List Criterion} {t : Tri} {c : Criterion}
    (hc : c ∈ cs) (ht : evalCriterion p c = t) : c ∈ critsWith p cs t := by
  simp [critsWith, List.mem_filter, hc, ht]

theorem isEmpty_false_of_mem {α : Type} {l : List α} {x : α} (h : x ∈ l) :
    l.isEmpty = false := by
  cases l with
  | nil => cases h
  | cons y ys => rfl

/-- C1: if at least one disqualifier criterion evaluates to true, the
outcome of `evaluateOne` is ineligible, its reasons are exactly the fired
disqualifiers' reasons (so they lead the list), and the outcome does not
depend on the `all`/`anyOf` groups at all (short-circuit). -/
theorem disqualifier_dominates (p : UserProfile) (r : EligibilityRule) (m : SchemeMeta)
    (h : ∃ c ∈ r.disqualifiers, evalCriterion p c = .isTrue) :
    (evaluateOne p r m).is_eligible = false
    ∧ (evaluateOne p r m).reasons = (firedDisqualifiers p r).map disqReason
    ∧ ∀ allC anyC : List Criterion,
        evaluateOne p { all := allC, anyOf := anyC, disqualifiers := r.disqualifiers } m
          = evaluateOne p r m := by
  obtain ⟨c, hc, ht⟩ := h
  have hmem : c ∈ critsWith p r.disqualifiers .isTrue := critsWith_mem hc ht
  have hne : (critsWith p r.disqualifiers .isTrue).isEmpty = false := isEmpty_false_of_mem hmem
  refine ⟨?_, ?_, ?_⟩
  · simp [evaluateOne, evaluateRule, firedDisqualifiers, hne]
  · simp [evaluateOne, reasonList, firedDisqualifiers, hne]
  · intro allC anyC
    simp [evaluateOne, evaluateRule, reasonList, scoreOf, firedDisqualifiers, hne]

theorem disqualifier_dominates_witness :
    (evaluateOne richProfile demoRuleDisq demoMeta).is_eligible = false
    ∧ (evaluateOne richProfile demoRuleDisq demoMeta).reasons
        = (firedDisqualifiers richProfile demoRuleDisq).map disqReason :=
  ⟨(disqualifier_dominates richProfile demoRuleDisq demoMeta (by decide)).1,
   (disqualifier_dominates richProfile demoRuleDisq demoMeta (by decide)).2.1⟩

/-- C5: with both criterion groups empty and no firing disqualifier,
`evaluateOne` reports eligible with a score of exactly 100. -/
theorem empty_groups_vacuously_eligible (p : UserProfile) (r : EligibilityRule)
    (m : SchemeMeta) (hall : r.all = []) (hany : r.anyOf = [])
    (hd : firedDisqualifiers p r = []) :
    (evaluateOne p r m).is_eligible = true ∧ (evaluateOne p r m).score = 100 := by
  constructor
  · simp [evaluateOne, evaluateRule, hd, hall, hany, groupAllVerdict, groupAnyVerdict,
      combineVerdicts]
  · simp [evaluateOne, evaluateRule, scoreOf, hd, hall, hany]

theorem empty_groups_vacuously_eligible_witness :
    (evaluateOne adultProfile emptyGroupsRule demoMeta).is_eligible = true
    ∧ (evaluateOne adultProfile emptyGroupsRule demoMeta).score = 100 :=
  empty_groups_vacuously_eligible adultProfile emptyGroupsRule demoMeta rfl rfl (by decide)

theorem dedupKeepFirstAux_spec (l : List String) : ∀ seen : List String,
    (dedupKeepFirstAux seen l).Nodup ∧ ∀ y ∈ dedupKeepFirstAux seen l, y ∉ seen := by
  induction l with
  | nil => intro seen; simp [dedupKeepFirstAux]
  | cons x xs ih =>
    intro seen
    by_cases hx : x ∈ seen
    · simpa [dedupKeepFirstAux, hx] using ih seen
    · have ihx := ih (x :: seen)
      refine ⟨?_, ?_⟩
      · simp only [dedupKeepFirstAux, hx, if_false, List.nodup_cons]
        refine ⟨fun hmem => ?_, ihx.1⟩
        exact (ihx.2 x hmem) (List.mem_cons_self x seen)
      · intro y hy
        simp only [dedupKeepFirstAux, hx, if_false, List.mem_cons] at hy
        rcases hy with rfl | hy2
        · exact hx
        · exact fun hs => (ihx.2 y hy2) (List.mem_cons_of_mem x hs)

theorem dedupKeepFirst_nodup (l : List String) : (dedupKeepFirst l).Nodup :=
  (dedupKeepFirstAux_spec l []).1

/-- C7: `evaluateOne` is deterministic: identical inputs give identical
outcomes, including the exact reasons and required-documents lists, and
the required-documents list is deduplicated. -/
theorem evaluateOne_deterministic (p₁ p₂ : UserProfile) (r₁ r₂ : EligibilityRule)
    (m₁ m₂ : SchemeMeta) (hp : p₁ = p₂) (hr : r₁ = r₂) (hm : m₁ = m₂) :
    evaluateOne p₁ r₁ m₁ = evaluateOne p₂ r₂ m₂
    ∧ (evaluateOne p₁ r₁ m₁).reasons = (evaluateOne p₂ r₂ m₂).reasons
    ∧ (evaluateOne p₁ r₁ m₁).required_documents
        = (evaluateOne p₂ r₂ m₂).required_documents
    ∧ (evaluateOne p₁ r₁ m₁).required_documents.Nodup := by
  subst hp; subst hr; subst hm
  exact ⟨rfl, rfl, rfl, dedupKeepFirst_nodup m₁.required_documents⟩

theorem evaluateOne_deterministic_witness :
    evaluateOne adultProfile demoRule demoMeta = evaluateOne adultProfile demoRule demoMeta
    ∧ (evaluateOne adultProfile demoRule demoMeta).required_documents.Nodup :=
  ⟨(evaluateOne_deterministic adultProfile adultProfile demoRule demoRule demoMeta demoMeta
      rfl rfl rfl).1,
   (evaluateOne_deterministic adultProfile adultProfile demoRule demoRule demoMeta demoMeta
      rfl rfl rfl).2.2.2⟩

/-- C8: every operator of the fixed set is a total function into the
tri-state (it never throws); comparison operators on a string versus a
number return undecided, as do membership operators on a non-list rule
value and `between` on a string; and an unknown operator name is rejected
with a configuration error at rule-load time by `parseCriterion`. -/
theorem operator_totality :
    (∀ (op : Operator) (pv : Scalar) (rv : CritValue),
        applyOp op pv rv = .isTrue ∨ applyOp op pv rv = .isFalse
          ∨ applyOp op pv rv = .undecided)
    ∧ (∀ op : Operator,
        op = .eq ∨ op = .ne ∨ op = .gt ∨ op = .ge ∨ op = .lt ∨ op = .le →
        ∀ (s : String) (n : Int),
          applyOp op (.str s) (.scalar (.num n)) = .undecided
          ∧ applyOp op (.num n) (.scalar (.str s)) = .undecided)
    ∧ (∀ pv v : Scalar,
        applyOp .mem pv (.scalar v) = .undecided
          ∧ applyOp .notMem pv (.scalar v) = .undecided)
    ∧ (∀ (s : String) (lo hi : Int),
        applyOp .between (.str s) (.list [.num lo, .num hi]) = .undecided)
    ∧ (∀ o : String, parseOp o = none → ∀ (a : String) (v : CritValue),
        parseCriterion { attr := some a, op := some o, value := v }
          = .error ("unknown operator " ++ o)) := by
  refine ⟨?_, ?_, ?_, ?_, ?_⟩
  · intro op pv rv
    cases happ : applyOp op pv rv <;> simp
  · rintro op (rfl | rfl | rfl | rfl | rfl | rfl) <;> intro s n <;> exact ⟨rfl, rfl⟩
  · intro pv v; exact ⟨rfl, rfl⟩
  · intro s lo hi; rfl
  · intro o ho a v; simp [parseCriterion, ho]

theorem operator_totality_witness :
    applyOp .gt (.str "KA") (.scalar (.num 18)) = .undecided
    ∧ parseCriterion { attr := some "age", op := some "~~", value := .scalar (.num 18) }
        = .error ("unknown operator " ++ "~~") :=
  ⟨(operator_totality.2.1 .gt (Or.inr (Or.inr (Or.inl rfl))) "KA" 18).1,
   operator_totality.2.2.2.2 "~~" (by decide) "age" (.scalar (.num 18))⟩

/-- C2 counterexample: with the age attribute missing (its criterion in
`all` is undecided and nothing in `all` is false) but a firing
disqualifier, the overall verdict is a definite false, not undecided, and
no insufficient-data reason is reported — refuting the claim that an
undecided `all` criterion with no false one in the group always forces an
undecided verdict. -/
theorem missing_attribute_verdict_counterexample :
    evalCriterion missingAgeProfile ageCriterion = .undecided
    ∧ ageCriterion ∈ demoRuleDisq.all
    ∧ (∀ c ∈ demoRuleDisq.all, evalCriterion missingAgeProfile c ≠ .isFalse)
    ∧ (evaluateRule missingAgeProfile demoRuleDisq).verdict ≠ .undecided
    ∧ insufficientReason ageCriterion
        ∉ (evaluateOne missingAgeProfile demoRuleDisq demoMeta).reasons := by
  decide

/-- C2 (amended): a criterion whose attribute is missing from the profile
evaluates to undecided, never false; and when no disqualifier fires and the
`anyOf` group is not false, an undecided criterion in `all` with no false
criterion in that group forces the verdict to undecided, reported as
ineligible together with an explicit insufficient-data reason naming the
criterion's attribute. -/
theorem missing_attribute_undecided :
    (∀ (p : UserProfile) (c : Criterion),
        lookupAttr p c.attr = none → evalCriterion p c = .undecided)
    ∧ (∀ (p : UserProfile) (r : EligibilityRule) (m : SchemeMeta),
        firedDisqualifiers p r = [] →
        groupAnyVerdict p r.anyOf ≠ .isFalse →
        (∃ c ∈ r.all, evalCriterion p c = .undecided) →
        (∀ c ∈ r.all, evalCriterion p c ≠ .isFalse) →
        (evaluateRule p r).verdict = .undecided
        ∧ (evaluateOne p r m).is_eligible = false
        ∧ ∀ c ∈ r.all, evalCriterion p c = .undecided →
            insufficientReason c ∈ (evaluateOne p r m).reasons) := by
  constructor
  · intro p c hmiss
    simp [evalCriterion, hmiss]
  · intro p r m hfired hanyv hundec hnofalse
    have hnotf : r.all.any (fun c => decide (evalCriterion p c = .isFalse)) = false := by
      rw [List.any_eq_false]
      intro c hc
      simp [hnofalse c hc]
    have hund : r.all.any (fun c => decide (evalCriterion p c = .undecided)) = true := by
      rw [List.any_eq_true]
      obtain ⟨c, hc, hcu⟩ := hundec
      exact ⟨c, hc, by simp [hcu]⟩
    have hgall : groupAllVerdict p r.all = .undecided := by
      simp [groupAllVerdict, hnotf, hund]
    have hverdict : (evaluateRule p r).verdict = .undecided := by
      simp only [evaluateRule, firedDisqualifiers] at *
      rw [hfired]
      simp only [List.isEmpty_nil, if_true]
      rw [hgall]
      cases hnv : groupAnyVerdict p r.anyOf
      · simp [combineVerdicts]
      · exact absurd hnv hanyv
      · simp [combineVerdicts]
    refine ⟨hverdict, ?_, ?_⟩
    · simp [evaluateOne, hverdict]
    · intro c hc hcu
      have hcmem : c ∈ critsWith p r.all .undecided := critsWith_mem hc hcu
      simp only [evaluateOne, reasonList, firedDisqualifiers] at *
      rw [hfired]
      simp only [List.isEmpty_nil, if_true]
      refine List.mem_append_right _ ?_
      exact List.mem_map_of_mem insufficientReason (List.mem_append_left _ hcmem)

theorem missing_attribute_undecided_witness :
    (evaluateRule farmerProfile demoRule).verdict = .undecided
    ∧ (evaluateOne farmerProfile demoRule demoMeta).is_eligible = false
    ∧ insufficientReason ageCriterion
        ∈ (evaluateOne farmerProfile demoRule demoMeta).reasons := by
  have h := missing_attribute_undecided.2 farmerProfile demoRule demoMeta
    (by decide) (by decide) ⟨ageCriterion, by decide, by decide⟩ (by decide)
  exact ⟨h.1, h.2.1, h.2.2 ageCriterion (by decide) (by decide)⟩

/-- C4: with no firing disqualifier the score follows the weighted
formula (100 exactly when both groups are empty); a disqualified scheme
scores exactly 0. -/
theorem score_formula (p : UserProfile) (r : EligibilityRule) (m : SchemeMeta) :
    (firedDisqualifiers p r ≠ [] → (evaluateOne p r m).score = 0)
    ∧ (firedDisqualifiers p r = [] → r.all = [] → r.anyOf = [] →
        (evaluateOne p r m).score = 100)
    ∧ (firedDisqualifiers p r = [] → (r.all ≠ [] ∨ r.anyOf ≠ []) →
        (evaluateOne p r m).score
          = 100 * ((2 * (critsWith p r.all .isTrue).length
                + (critsWith p r.anyOf .isTrue).length : Nat) : ℚ)
              / ((2 * r.all.length + r.anyOf.length : Nat) : ℚ)) := by
  refine ⟨?_, ?_, ?_⟩
  · intro hne
    have hf : (firedDisqualifiers p r).isEmpty = false := by
      cases hl : firedDisqualifiers p r with
      | nil => exact absurd hl hne
      | cons d ds => rfl
    simp only [evaluateOne, evaluateRule, firedDisqualifiers] at *
    simp [hf, scoreOf]
  · intro hfired hall hany
    simp only [evaluateOne, evaluateRule, firedDisqualifiers] at *
    rw [hfired]
    simp [scoreOf, hall, hany]
  · intro hfired hnonempty
    have hboth : (r.all.isEmpty && r.anyOf.isEmpty) = false := by
      rcases hnonempty with h1 | h1
      · cases hl : r.all with
        | nil => exact absurd hl h1
        | cons c cs => simp [hl]
      · cases hl : r.anyOf with
        | nil => exact absurd hl h1
        | cons c cs => simp [hl]
    simp only [evaluateOne, evaluateRule, firedDisqualifiers] at *
    rw [hfired]
    simp [scoreOf, hboth]

theorem score_formula_witness :
    (evaluateOne richProfile demoRuleDisq demoMeta).score = 0
    ∧ (evaluateOne adultProfile emptyGroupsRule demoMeta).score = 100
    ∧ (evaluateOne adultProfile demoRule demoMeta).score
        = 100 * ((2 * (critsWith adultProfile demoRule.all .isTrue).length
              + (critsWith adultProfile demoRule.anyOf .isTrue).length : Nat) : ℚ)
            / ((2 * demoRule.all.length + demoRule.anyOf.length : Nat) : ℚ) :=
  ⟨(score_formula richProfile demoRuleDisq demoMeta).1 (by decide),
   (score_formula adultProfile emptyGroupsRule demoMeta).2.1 (by decide) rfl rfl,
   (score_formula adultProfile demoRule demoMeta).2.2 (by decide) (Or.inl (by decide))⟩

theorem insertOutcome_perm (x : EvaluationOutcome) (l : List EvaluationOutcome) :
    (insertOutcome x l).Perm (x :: l) := by
  induction l with
  | nil => exact List.Perm.refl _
  | cons y ys ih =>
    by_cases hxy : x.score < y.score
    · simp only [insertOutcome, hxy, if_true]
      exact (ih.cons y).trans (List.Perm.swap x y ys)
    · simp only [insertOutcome, hxy, if_false]
      exact List.Perm.refl _

theorem sortByScoreDesc_perm (l : List EvaluationOutcome) :
    (sortByScoreDesc l).Perm l := by
  induction l with
  | nil => exact List.Perm.refl _
  | cons x xs ih =>
    exact (insertOutcome_perm x (sortByScoreDesc xs)).trans (ih.cons x)

theorem pairwise_insertOutcome (x : EvaluationOutcome) (l : List EvaluationOutcome)
    (h : l.Pairwise (fun a b => b.score ≤ a.score)) :
    (insertOutcome x l).Pairwise (fun a b => b.score ≤ a.score) := by
  induction l with
  | nil => simp [insertOutcome]
  | cons y ys ih =>
    rw [List.pairwise_cons] at h
    by_cases hxy : x.score < y.score
    · simp only [insertOutcome, hxy, if_true]
      rw [List.pairwise_cons]
      refine ⟨?_, ih h.2⟩
      intro b hb
      rcases List.mem_cons.mp ((insertOutcome_perm x ys).mem_iff.mp hb) with rfl | hbys
      · exact le_of_lt hxy
      · exact h.1 b hbys
    · simp only [insertOutcome, hxy, if_false]
      rw [List.pairwise_cons]
      refine ⟨?_, List.pairwise_cons.mpr h⟩
      intro b hb
      rcases List.mem_cons.mp hb with rfl | hbys
      · exact le_of_not_lt hxy
      · exact le_trans (h.1 b hbys) (le_of_not_lt hxy)

theorem sortByScoreDesc_sorted (l : List EvaluationOutcome) :
    (sortByScoreDesc l).Pairwise (fun a b => b.score ≤ a.score) := by
  induction l with
  | nil => simp [sortByScoreDesc]
  | cons x xs ih => exact pairwise_insertOutcome x (sortByScoreDesc xs) ih

theorem filter_insertOutcome (x : EvaluationOutcome) (l : List EvaluationOutcome) (s : ℚ) :
    (insertOutcome x l).filter (fun o => decide (o.score = s))
      = if x.score = s then x :: l.filter (fun o => decide (o.score = s))
        else l.filter (fun o => decide (o.score = s)) := by
  induction l with
  | nil =>
    by_cases hx : x.score = s <;> simp [insertOutcome, List.filter_cons, hx]
  | cons y ys ih =>
    by_cases hxy : x.score < y.score
    · simp only [insertOutcome, hxy, if_true]
      by_cases hx : x.score = s
      · have hy : ¬ y.score = s := by
          intro hys
          rw [hx] at hxy
          rw [hys] at hxy
          exact lt_irrefl s hxy
        simp [List.filter_cons, hy, ih, hx]
      · simp [List.filter_cons, ih, hx]
    · simp only [insertOutcome, hxy, if_false]
      by_cases hx : x.score = s <;> simp [List.filter_cons, hx]

theorem filter_sortByScoreDesc (l : List EvaluationOutcome) (s : ℚ) :
    (sortByScoreDesc l).filter (fun o => decide (o.score = s))
      = l.filter (fun o => decide (o.score = s)) := by
  induction l with
  | nil => rfl
  | cons x xs ih =>
    show (insertOutcome x (sortByScoreDesc xs)).filter (fun o => decide (o.score = s)) = _
    rw [filter_insertOutcome, ih]
    by_cases hx : x.score = s <;> simp [List.filter_cons, hx]

/-- C3: `evaluateCatalog` keeps one outcome per catalog entry (equal
lengths, each entry's outcome is in the results), its eligible count
equals the number of eligible results, and a malformed rule (missing
attribute or op, or unknown operator) yields for its scheme alone an
ineligible zero-score outcome with a malformed-rule reason — the batch is
never aborted. -/
theorem catalog_isolation_and_counts (p : UserProfile)
    (catalog : List (RawRule × SchemeMeta)) :
    (evaluateCatalog p catalog).results.length = catalog.length
    ∧ (evaluateCatalog p catalog).eligible_schemes
        = ((evaluateCatalog p catalog).results.filter (fun o => o.is_eligible)).length
    ∧ (∀ e ∈ catalog, entryOutcome p e ∈ (evaluateCatalog p catalog).results)
    ∧ (∀ (raw : RawRule) (m : SchemeMeta) (msg : String), parseRule raw = .error msg →
        (entryOutcome p (raw, m)).is_eligible = false
        ∧ (entryOutcome p (raw, m)).score = 0
        ∧ ("Malformed rule: " ++ msg) ∈ (entryOutcome p (raw, m)).reasons) := by
  have hperm : ((evaluateCatalog p catalog).results).Perm (catalog.map (entryOutcome p)) :=
    sortByScoreDesc_perm (catalog.map (entryOutcome p))
  refine ⟨?_, ?_, ?_, ?_⟩
  · rw [hperm.length_eq, List.length_map]
  · show (catalog.map (entryOutcome p)).countP (fun o => o.is_eligible) = _
    rw [← List.countP_eq_length_filter]
    exact (hperm.countP_eq (fun o => o.is_eligible)).symm
  · intro e he
    exact hperm.mem_iff.mpr (List.mem_map_of_mem (entryOutcome p) he)
  · intro raw m msg hparse
    simp [entryOutcome, hparse]

theorem catalog_isolation_and_counts_witness :
    (evaluateCatalog adultProfile [(badRawRule, demoMeta)]).results.length = 1
    ∧ (entryOutcome adultProfile (badRawRule, demoMeta)).is_eligible = false
    ∧ (entryOutcome adultProfile (badRawRule, demoMeta)).score = 0
    ∧ ("Malformed rule: " ++ "unknown operator ~~")
        ∈ (entryOutcome adultProfile (badRawRule, demoMeta)).reasons :=
  ⟨(catalog_isolation_and_counts adultProfile [(badRawRule, demoMeta)]).1,
   (catalog_isolation_and_counts adultProfile [(badRawRule, demoMeta)]).2.2.2
     badRawRule demoMeta "unknown operator ~~" rfl⟩

/-- C6: the results of `evaluateCatalog` are sorted by descending score,
and the sort is stable: for every score value, the results with that score
appear in original catalog order. -/
theorem results_sorted_stable (p : UserProfile) (catalog : List (RawRule × SchemeMeta)) :
    (evaluateCatalog p catalog).results.Pairwise (fun a b => b.score ≤ a.score)
    ∧ ∀ s : ℚ,
        (evaluateCatalog p catalog).results.filter (fun o => decide (o.score = s))
          = (catalog.map (entryOutcome p)).filter (fun o => decide (o.score = s)) :=
  ⟨sortByScoreDesc_sorted (catalog.map (entryOutcome p)),
   fun s => filter_sortByScoreDesc (catalog.map (entryOutcome p)) s⟩

theorem validator_required_fields {d : Doc} (h : eligibilityResultsValidator d = true) :
    hasField d "user_id" = true ∧ hasField d "scheme_id" = true
    ∧ hasField d "is_eligible" = true ∧ hasField d "checked_at" = true := by
  simp only [eligibilityResultsValidator, Bool.and_eq_true] at h
  exact ⟨h.1.1.1.1.1.1.1.1.1, h.1.1.1.1.1.1.1.1.2, h.1.1.1.1.1.1.1.2, h.1.1.1.1.1.1.2⟩

/-- C9: every state of the `eligibility_results` collection reachable
through the initialized collection (validator plus unique
`(user_id, scheme_id)` index) holds at most one document per
`(user_id, scheme_id)` pair, and each stored document carries the
`user_id`, `scheme_id`, `is_eligible` and `checked_at` fields. -/
theorem results_collection_invariant (s : List Doc) (h : ResultsState s) :
    s.Pairwise (fun d1 d2 => resultKey d1 ≠ resultKey d2)
    ∧ ∀ d ∈ s, hasField d "user_id" = true ∧ hasField d "scheme_id" = true
        ∧ hasField d "is_eligible" = true ∧ hasField d "checked_at" = true := by
  induction h with
  | empty => exact ⟨List.Pairwise.nil, fun d hd => absurd hd (List.not_mem_nil d)⟩
  | insert d s hs hvalid hkey ih =>
    refine ⟨List.pairwise_cons.mpr ⟨?_, ih.1⟩, ?_⟩
    · intro d2 hd2
      exact fun he => (hkey d2 hd2) he.symm
    · intro d3 hd3
      rcases List.mem_cons.mp hd3 with rfl | hd3s
      · exact validator_required_fields hvalid
      · exact ih.2 d3 hd3s
  | remove s t hs hsub ih =>
    exact ⟨ih.1.sublist hsub, fun d hd => ih.2 d (hsub.subset hd)⟩

theorem results_collection_invariant_witness :
    List.Pairwise (fun d1 d2 => resultKey d1 ≠ resultKey d2) [sampleResultDoc]
    ∧ ∀ d ∈ [sampleResultDoc],
        hasField d "user_id" = true ∧ hasField d "scheme_id" = true
        ∧ hasField d "is_eligible" = true ∧ hasField d "checked_at" = true :=
  results_collection_invariant [sampleResultDoc]
    (ResultsState.insert sampleResultDoc [] ResultsState.empty rfl
      (fun d2 hd2 => absurd hd2 (List.not_mem_nil d2)))

/-- C10: the `scheme_rules` validator requires only `scheme_id`,
`scheme_name`, `eligibility` and `required_inputs`; it accepts a concrete
stored rule document with no `required_documents` field, which the
boundary loader tolerates as the empty list, while every
`EvaluationOutcome` built by the engine still carries a
required-documents list derived from its metadata. -/
theorem scheme_rules_optional_documents :
    (∀ d : Doc, schemeRulesValidator d = true →
        hasField d "scheme_id" = true ∧ hasField d "scheme_name" = true
        ∧ hasField d "eligibility" = true ∧ hasField d "required_inputs" = true)
    ∧ schemeRulesValidator schemeRuleDocNoDocs = true
    ∧ hasField schemeRuleDocNoDocs "required_documents" = false
    ∧ loadRequiredDocuments schemeRuleDocNoDocs = []
    ∧ ∀ (p : UserProfile) (r : EligibilityRule) (m : SchemeMeta),
        (evaluateOne p r m).required_documents = dedupKeepFirst m.required_documents := by
  refine ⟨?_, rfl, rfl, rfl, fun p r m => rfl⟩
  intro d h
  simp only [schemeRulesValidator, Bool.and_eq_true] at h
  refine ⟨?_, ?_, ?_, ?_⟩ <;> tauto

theorem scheme_rules_optional_documents_witness :
    hasField schemeRuleDocNoDocs "scheme_id" = true
    ∧ hasField schemeRuleDocNoDocs "scheme_name" = true
    ∧ hasField schemeRuleDocNoDocs "eligibility" = true
    ∧ hasField schemeRuleDocNoDocs "required_inputs" = true :=
  scheme_rules_optional_documents.1 schemeRuleDocNoDocs rfl

end GovConnect
